import Mathlib

/-!
# Verification of the MT5 back-office core (metacms)

Shallow embedding of the trading-engine gateway client and the daily P&L
reconciliation algorithm of the `metacms` repository, together with theorems
settling the frozen specification claims.

Conventions of the embedding:
* Python `float` amounts are modelled as `ℚ` (exact field arithmetic over the
  same operations the code performs).
* `time.time()` instants are modelled as `ℤ`, passed explicitly to every
  state transition that reads the clock.
* Stateful Python objects become explicit state records threaded through
  transition functions; raised exceptions become `Except`/`Option` results.
* Side effects that the claims talk about (backoff sleeps, breaker updates,
  remote invocations) are recorded in explicit event traces.
-/

deriving instance DecidableEq for Except

namespace MetaCms

/-! ## Circuit breaker (`app/services/mt5_manager.py`, class `CircuitBreaker`) -/

/-- The three breaker states, the Python strings `"closed"`, `"open"`,
`"half_open"`. -/
inductive CBMode where
  | closed
  | opened
  | halfOpen
deriving DecidableEq

/-- State of `CircuitBreaker`: constructor defaults are
`failure_threshold=5`, `timeout=60`, `failure_count=0`, `last_failure_time=0`,
`state="closed"`. -/
structure CBState where
  failure_threshold : Nat
  timeout : Int
  failure_count : Nat
  last_failure_time : Int
  state : CBMode
deriving DecidableEq

/-- Embeds `CircuitBreaker()` with the constructor defaults. -/
def CBState.fresh : CBState :=
  { failure_threshold := 5, timeout := 60, failure_count := 0
    last_failure_time := 0, state := CBMode.closed }

/-- Embeds `CircuitBreaker.call_failed`, stamped with the current clock `now`. -/
def call_failed (cb : CBState) (now : Int) : CBState :=
  let fc := cb.failure_count + 1
  { cb with
    failure_count := fc
    last_failure_time := now
    state := if cb.failure_threshold ≤ fc then CBMode.opened else cb.state }

/-- Embeds `CircuitBreaker.call_succeeded`. -/
def call_succeeded (cb : CBState) : CBState :=
  { cb with failure_count := 0, state := CBMode.closed }

/-- Embeds `CircuitBreaker.can_execute`, stamped with the current clock `now`.
Returns the boolean answer together with the (possibly auto-transitioned)
breaker state. -/
def can_execute (cb : CBState) (now : Int) : Bool × CBState :=
  match cb.state with
  | CBMode.closed => (true, cb)
  | CBMode.opened =>
      if cb.timeout ≤ now - cb.last_failure_time then
        (true, { cb with state := CBMode.halfOpen })
      else
        (false, cb)
  | CBMode.halfOpen => (true, cb)

/-- Driver: a sequence of `can_execute` calls at the given instants,
threading the breaker state and collecting the returned booleans. -/
def can_execute_seq (cb : CBState) : List Int → List Bool × CBState
  | [] => ([], cb)
  | t :: ts =>
      let r := can_execute cb t
      let rest := can_execute_seq r.2 ts
      (r.1 :: rest.1, rest.2)

/-! ## Deal classification (`app/services/mt5_manager.py`,
`MT5ManagerService.get_deal_history`, lines 1156-1240) -/

/-- A raw deal row as returned by the remote engine: the fields
`get_deal_history` reads (`Action`, `Login`, `Profit`, `Comment`). -/
structure Deal where
  login : Nat
  action_code : Nat
  amount : ℚ
  comment : String
deriving DecidableEq

/-- An `Mt5DealHistory` entry, restricted to the fields the P&L loop reads. -/
structure Mt5DealHistory where
  login : Nat
  action : String
  amount : ℚ
  tag : String
deriving DecidableEq

/-- Python `str.upper`, character-wise (ASCII comments; Python `str.upper`
agrees with `Char.toUpper` on them). -/
def str_upper (s : String) : String := String.mk (s.data.map Char.toUpper)

/-- Python `str.startswith`, character-wise. -/
def str_starts_with (s pre : String) : Bool := pre.data.isPrefixOf s.data

/-- Embeds `comment.upper() if comment else ""`. -/
def comment_upper (comment : String) : String :=
  if comment = "" then "" else str_upper comment

/-- The `action_map` lookup: `2 ↦ DEPOSIT/WITHDRAWAL` by sign,
`3 ↦ CREDIT/CREDIT_OUT` by sign, `4 ↦ CHARGE`, `6 ↦ CORRECTION`,
default `UNKNOWN`. -/
def action_name (action_code : Nat) (amount : ℚ) : String :=
  if action_code = 2 then (if 0 < amount then "DEPOSIT" else "WITHDRAWAL")
  else if action_code = 3 then (if 0 < amount then "CREDIT" else "CREDIT_OUT")
  else if action_code = 4 then "CHARGE"
  else if action_code = 6 then "CORRECTION"
  else "UNKNOWN"

/-- The tag classification by comment-prefix (case-insensitive), with the
action-code fallback: the `if/elif` cascade at lines 1207-1222. -/
def classify_tag (comment : String) (action_code : Nat) : String :=
  let up := comment_upper comment
  if str_starts_with up "DT" then "Deposit"
  else if str_starts_with up "WT" then "Withdrawal"
  else if str_starts_with up "REB" then "Rebate"
  else if str_starts_with up "PRO" then "Promotion"
  else if action_code = 3 then ""
  else if action_code = 2 ∨ action_code = 4 ∨ action_code = 6 then "Promotion"
  else ""

/-- Conversion of one raw deal into an `Mt5DealHistory` row. -/
def mk_history (d : Deal) : Mt5DealHistory :=
  { login := d.login
    action := action_name d.action_code d.amount
    amount := d.amount
    tag := classify_tag d.comment d.action_code }

/-- The pure core of `get_deal_history`: keep only balance-operation action
codes (`[2, 3, 4, 6]`), classify each remaining deal. -/
def get_deal_history (deals : List Deal) : List Mt5DealHistory :=
  (deals.filter (fun d =>
    d.action_code = 2 ∨ d.action_code = 3 ∨ d.action_code = 4 ∨
      d.action_code = 6)).map mk_history

/-! ## Daily P&L (`app/services/daily_pnl.py`) -/

/-- A daily report row, restricted to the fields
`DailyPnLService.calculate_daily_pnl` reads. -/
structure DailyReport where
  login : Nat
  date : String
  present_equity : ℚ
  equity_prev_day : ℚ
  daily_agent : ℚ
  group : String
  currency : String
deriving DecidableEq

/-- The `Mt5DailyPnL` dataclass (`app/services/mt5_manager.py`, lines
144-162). -/
structure Mt5DailyPnL where
  login : Nat
  date : String
  present_equity : ℚ
  equity_prev_day : ℚ
  deposit : ℚ := 0
  withdrawal : ℚ := 0
  net_deposit : ℚ := 0
  credit : ℚ := 0
  promotion : ℚ := 0
  net_credit_promotion : ℚ := 0
  total_ib : ℚ := 0
  rebate : ℚ := 0
  equity_pnl : ℚ := 0
  net_pnl : ℚ := 0
  group : String := ""
  currency : String := ""
deriving DecidableEq

/-- Accumulator of the deal-classification loop (lines 79-105). -/
structure PnlAcc where
  deposit : ℚ
  withdrawal : ℚ
  net_deposit : ℚ
  promotion : ℚ
  net_credit_promotion : ℚ
  rebate : ℚ
deriving DecidableEq

def PnlAcc.zero : PnlAcc := ⟨0, 0, 0, 0, 0, 0⟩

/-- One iteration of the tag-based classification loop (lines 86-105; the
identical loop appears at lines 255-274 of the bulk path). -/
def step_deal (acc : PnlAcc) (d : Mt5DealHistory) : PnlAcc :=
  if d.tag = "Deposit" then
    { acc with deposit := acc.deposit + |d.amount|
               net_deposit := acc.net_deposit + d.amount }
  else if d.tag = "Withdrawal" then
    { acc with withdrawal := acc.withdrawal + |d.amount|
               net_deposit := acc.net_deposit + d.amount }
  else if d.tag = "Rebate" then
    { acc with rebate := acc.rebate + d.amount
               net_credit_promotion := acc.net_credit_promotion + d.amount }
  else if d.tag = "Promotion" then
    { acc with promotion := acc.promotion + (if 0 < d.amount then |d.amount| else 0)
               net_credit_promotion := acc.net_credit_promotion + d.amount }
  else if d.action = "DEPOSIT" ∨ d.action = "WITHDRAWAL" then
    { acc with net_deposit := acc.net_deposit + d.amount }
  else if d.action = "CREDIT" ∨ d.action = "CREDIT_OUT" ∨
          d.action = "CHARGE" ∨ d.action = "CORRECTION" then
    { acc with net_credit_promotion := acc.net_credit_promotion + d.amount }
  else acc

/-- Steps 3-5 of `calculate_daily_pnl` applied to one report and the
classified deal history (this exact block is duplicated verbatim in
`calculate_all_logins_pnl`, lines 247-303). -/
def record_from (login : Nat) (target : String) (rep : DailyReport)
    (hist : List Mt5DealHistory) : Mt5DailyPnL :=
  let acc := hist.foldl step_deal PnlAcc.zero
  let total_ib := rep.daily_agent
  let equity_pnl := rep.present_equity - rep.equity_prev_day - acc.net_deposit
      - acc.net_credit_promotion - total_ib
  let net_pnl := equity_pnl - acc.promotion
  { login := login
    date := target
    present_equity := rep.present_equity
    equity_prev_day := rep.equity_prev_day
    deposit := acc.deposit
    withdrawal := acc.withdrawal
    net_deposit := acc.net_deposit
    promotion := acc.promotion
    net_credit_promotion := acc.net_credit_promotion
    total_ib := total_ib
    rebate := acc.rebate
    equity_pnl := equity_pnl
    net_pnl := net_pnl
    group := rep.group
    currency := rep.currency }

/-- Embeds `DailyPnLService.calculate_daily_pnl` as a pure function of the fetched
daily reports (for the login, covering `prev_date..target_date`) and the raw
deals fetched for the login on the target date. The target report is the
first report whose `date` equals the target date string (lines 57-61);
`None` when absent. -/
def calculate_daily_pnl (login : Nat) (target : String)
    (reports : List DailyReport) (deals : List Deal) : Option Mt5DailyPnL :=
  match reports.find? (fun r => r.date = target) with
  | none => none
  | some rep => some (record_from login target rep (get_deal_history deals))

/-- One step of building `reports_by_login` (lines 217-220): Python dict
assignment — an existing key keeps its position and gets the new value, a
new key is appended. -/
def insert_report (m : List (Nat × DailyReport)) (r : DailyReport) :
    List (Nat × DailyReport) :=
  if (m.find? (fun p => p.1 = r.login)).isSome then
    m.map (fun p => if p.1 = r.login then (p.1, r) else p)
  else m ++ [(r.login, r)]

/-- Builds `reports_by_login`: iterate the fetched reports in order, keeping those
dated the target date, last assignment per login winning. -/
def build_report_map (reports : List DailyReport) (target : String) :
    List (Nat × DailyReport) :=
  reports.foldl (fun m r => if r.date = target then insert_report m r else m) []

/-- Embeds `DailyPnLService.calculate_all_logins_pnl` as a pure function of the
wildcard report and deal fetches: classify all deals once, group them by
login (`deals_by_login`), and run the per-login computation for every entry
of `reports_by_login`. -/
def calculate_all_logins_pnl (target : String) (reports : List DailyReport)
    (deals : List Deal) : List Mt5DailyPnL :=
  let hist := get_deal_history deals
  (build_report_map reports target).map (fun p =>
    record_from p.1 target p.2 (hist.filter (fun h => h.login = p.1)))

/-- Embeds `DailyPnLService.aggregate_institution_pnl` (lines 317-388). -/
def aggregate_institution_pnl (pnl_list : List Mt5DailyPnL) (target : String) :
    Mt5DailyPnL :=
  if pnl_list = [] then
    { login := 0, date := target
      present_equity := 0, equity_prev_day := 0
      deposit := 0, withdrawal := 0, net_deposit := 0, promotion := 0
      net_credit_promotion := 0, total_ib := 0, rebate := 0
      equity_pnl := 0, net_pnl := 0, group := "ALL", currency := "USD" }
  else
    { login := 0, date := target
      present_equity := (pnl_list.map Mt5DailyPnL.present_equity).sum
      equity_prev_day := (pnl_list.map Mt5DailyPnL.equity_prev_day).sum
      deposit := (pnl_list.map Mt5DailyPnL.deposit).sum
      withdrawal := (pnl_list.map Mt5DailyPnL.withdrawal).sum
      net_deposit := (pnl_list.map Mt5DailyPnL.net_deposit).sum
      promotion := (pnl_list.map Mt5DailyPnL.promotion).sum
      net_credit_promotion := (pnl_list.map Mt5DailyPnL.net_credit_promotion).sum
      total_ib := (pnl_list.map Mt5DailyPnL.total_ib).sum
      rebate := (pnl_list.map Mt5DailyPnL.rebate).sum
      equity_pnl := (pnl_list.map Mt5DailyPnL.equity_pnl).sum
      net_pnl := (pnl_list.map Mt5DailyPnL.net_pnl).sum
      group := "ALL", currency := "USD" }

/-! ## Retry executor (`MT5ManagerService._execute_with_retry` and
`MT5ManagerService.connect`) -/

/-- Error kinds raised along the retry path. -/
inductive GwErr where
  | circuitOpen
  | connectFailed
  | opFailed
deriving DecidableEq

/-- Observable events of one `_execute_with_retry` run. -/
inductive Ev where
  | checkedBreaker
  | triedConnect
  | recordedFailure
  | recordedSuccess
  | ranOp
  | slept (seconds : Nat)
deriving DecidableEq

/-- Service state threaded through the retry loop: the `connected` flag and
the shared breaker. -/
structure SvcState where
  connected : Bool
  breaker : CBState
deriving DecidableEq

/-- Environment of one attempt: whether a connect attempt would succeed,
the wrapped operation's outcome (`some v` = returns `v`, `none` = raises),
and the clock during the attempt. -/
structure AttemptEnv where
  connectOk : Bool
  opResult : Option Nat
  time : Int
deriving DecidableEq

/-- Embeds `MT5ManagerService.connect` (lines 199-235), as invoked from the retry
loop: no-op when already connected; otherwise consult the breaker (raising
the circuit-open `MT5ConnectionError` on refusal), then attempt the remote
connect, recording breaker success or failure. -/
def do_connect (s : SvcState) (env : AttemptEnv) :
    Except GwErr Unit × SvcState × List Ev :=
  if s.connected then (Except.ok (), s, [])
  else
    let r := can_execute s.breaker env.time
    if r.1 = false then
      (Except.error GwErr.circuitOpen, { s with breaker := r.2 }, [Ev.checkedBreaker])
    else if env.connectOk then
      (Except.ok (), { connected := true, breaker := call_succeeded r.2 },
        [Ev.checkedBreaker, Ev.triedConnect, Ev.recordedSuccess])
    else
      (Except.error GwErr.connectFailed,
        { s with breaker := call_failed r.2 env.time },
        [Ev.checkedBreaker, Ev.triedConnect, Ev.recordedFailure])

/-- The body of one iteration of the retry loop (lines 251-256): reconnect
if needed, then run the wrapped operation, recording breaker success when it
returns. Failures propagate as errors to the loop's handler. -/
def do_attempt (s : SvcState) (env : AttemptEnv) :
    Except GwErr Nat × SvcState × List Ev :=
  match (if s.connected then (Except.ok (), s, ([] : List Ev)) else do_connect s env) with
  | (Except.error e, s1, evs) => (Except.error e, s1, evs)
  | (Except.ok _, s1, evs) =>
      match env.opResult with
      | some v =>
          (Except.ok v, { s1 with breaker := call_succeeded s1.breaker },
            evs ++ [Ev.ranOp, Ev.recordedSuccess])
      | none => (Except.error GwErr.opFailed, s1, evs ++ [Ev.ranOp])

/-- The terminal wrapped error: `MT5Exception("Operation failed after N
retries: {last_exception}")`. -/
inductive RunErr where
  | wrapped (last : Option GwErr)
deriving DecidableEq

/-- The retry loop of `_execute_with_retry` from attempt index `i` on, with
`envs` the environments of the remaining attempts and `last` the latest
caught exception. On a failed attempt that is not the final one: backoff
sleep of `2 ** attempt` seconds, mark disconnected; in either case record a
breaker failure; after the final attempt raise the wrapped error. -/
def run_retry : Nat → List AttemptEnv → SvcState → Option GwErr →
    Except RunErr Nat × SvcState × List Ev
  | _, [], s, last => (Except.error (RunErr.wrapped last), s, [])
  | i, env :: rest, s, _last =>
      match do_attempt s env with
      | (Except.ok v, s1, evs) => (Except.ok v, s1, evs)
      | (Except.error e, s1, evs) =>
          if rest.isEmpty then
            (Except.error (RunErr.wrapped (some e)),
              { s1 with breaker := call_failed s1.breaker env.time },
              evs ++ [Ev.recordedFailure])
          else
            let s2 : SvcState :=
              { connected := false, breaker := call_failed s1.breaker env.time }
            let k := run_retry (i + 1) rest s2 (some e)
            (k.1, k.2.1, evs ++ [Ev.slept (2 ^ i), Ev.recordedFailure] ++ k.2.2)

/-- Embeds `MT5ManagerService._execute_with_retry`: `settings.mt5_max_retries`
attempts, one environment per attempt. -/
def execute_with_retry (envs : List AttemptEnv) (s : SvcState) :
    Except RunErr Nat × SvcState × List Ev :=
  run_retry 0 envs s none

/-! ## Balance mutation (`MT5ManagerService.apply_balance_operation`,
lines 413-437) -/

/-- The two remote ledger actions used by `apply_balance_operation`. -/
inductive EnDealAction where
  | DEAL_BALANCE
  | DEAL_CREDIT
deriving DecidableEq

/-- The operation-type dispatch of `apply_balance_operation`: the value
`some (login, action, amount)` is the single `DealerBalance` remote call the
function issues; `none` is the `MT5InvalidDataError` raised before any
remote call. -/
def apply_balance_operation (login : Nat) (op_type : String) (amount : ℚ) :
    Option (Nat × EnDealAction × ℚ) :=
  if op_type = "deposit" ∨ op_type = "withdrawal" then
    some (login, EnDealAction.DEAL_BALANCE,
      if op_type = "withdrawal" then -|amount| else |amount|)
  else if op_type = "credit_in" ∨ op_type = "credit_out" then
    some (login, EnDealAction.DEAL_CREDIT,
      if op_type = "credit_out" then -|amount| else |amount|)
  else none

/-! ## Idempotent balance-operation creation (`app/routers/balance.py`,
`create_operation`, and `app/repositories/balance_repo.py`) -/

/-- A stored `BalanceOperation` row, restricted to the fields the router
reads and writes. -/
structure BalanceOp where
  id : Nat
  login : Nat
  op_type : String
  amount : ℚ
  status : String
  idempotency_key : Option String
deriving DecidableEq

/-- Local database state: the balance-operation table and the next row id. -/
structure LedgerState where
  ops : List BalanceOp
  next_id : Nat
deriving DecidableEq

/-- Embeds `BalanceRepository.get_by_idempotency_key`: the row whose
`idempotency_key` equals the given key (the column is unique, so at most one
row matches; `find?` returns it). -/
def get_by_idempotency_key (ops : List BalanceOp) (key : String) :
    Option BalanceOp :=
  ops.find? (fun o => o.idempotency_key = some key)

/-- Python truthiness of the optional `Idempotency-Key` header: absent or
empty string is falsy. -/
def key_given : Option String → Bool
  | none => false
  | some k => k ≠ ""

/-- The non-short-circuit path of the `create_operation` endpoint: verify
the account locally, apply the remote mutation, persist a completed record
carrying the submitted idempotency key. -/
def create_operation_fresh (st : LedgerState) (key : Option String)
    (login : Nat) (op_type : String) (amount : ℚ) (account_exists : Bool)
    (remote_ok : Bool) : Except String BalanceOp × LedgerState × Nat :=
  if account_exists = false then (Except.error "Account not found", st, 0)
  else if remote_ok = false then (Except.error "Operation failed", st, 1)
  else
    let op : BalanceOp :=
      { id := st.next_id, login := login, op_type := op_type
        amount := amount, status := "completed", idempotency_key := key }
    (Except.ok op, { ops := st.ops ++ [op], next_id := st.next_id + 1 }, 1)

/-- The `create_operation` endpoint (lines 74-128) as a state transition:
returns the response (or HTTP error detail), the new database state, and
the number of remote `apply_balance_operation` invocations performed.
`account_exists` models the local account lookup and `remote_ok` the remote
mutation outcome. A truthy idempotency key with an existing record
short-circuits: the stored record is returned with no remote call and no
database change. -/
def create_operation (st : LedgerState) (key : Option String) (login : Nat)
    (op_type : String) (amount : ℚ) (account_exists : Bool) (remote_ok : Bool) :
    Except String BalanceOp × LedgerState × Nat :=
  match (if key_given key then key else none) with
  | some k =>
      match get_by_idempotency_key st.ops k with
      | some existing => (Except.ok existing, st, 0)
      | none => create_operation_fresh st key login op_type amount account_exists remote_ok
  | none => create_operation_fresh st key login op_type amount account_exists remote_ok

/-! ## Theorems for the claims -/

/-- C4: for every (possibly empty) list of per-account `Mt5DailyPnL` records
and every date, `aggregate_institution_pnl` returns a record whose numeric
fields are the field-wise sums over the input, with `login = 0` and
`group = "ALL"`; the empty list yields an all-zero record rather than a
failure. -/
theorem c4_aggregate_is_fieldwise_sum (pnl_list : List Mt5DailyPnL) (target : String) :
    (aggregate_institution_pnl pnl_list target).login = 0 ∧
    (aggregate_institution_pnl pnl_list target).date = target ∧
    (aggregate_institution_pnl pnl_list target).group = "ALL" ∧
    (aggregate_institution_pnl pnl_list target).present_equity
      = (pnl_list.map Mt5DailyPnL.present_equity).sum ∧
    (aggregate_institution_pnl pnl_list target).equity_prev_day
      = (pnl_list.map Mt5DailyPnL.equity_prev_day).sum ∧
    (aggregate_institution_pnl pnl_list target).deposit
      = (pnl_list.map Mt5DailyPnL.deposit).sum ∧
    (aggregate_institution_pnl pnl_list target).withdrawal
      = (pnl_list.map Mt5DailyPnL.withdrawal).sum ∧
    (aggregate_institution_pnl pnl_list target).net_deposit
      = (pnl_list.map Mt5DailyPnL.net_deposit).sum ∧
    (aggregate_institution_pnl pnl_list target).promotion
      = (pnl_list.map Mt5DailyPnL.promotion).sum ∧
    (aggregate_institution_pnl pnl_list target).net_credit_promotion
      = (pnl_list.map Mt5DailyPnL.net_credit_promotion).sum ∧
    (aggregate_institution_pnl pnl_list target).total_ib
      = (pnl_list.map Mt5DailyPnL.total_ib).sum ∧
    (aggregate_institution_pnl pnl_list target).rebate
      = (pnl_list.map Mt5DailyPnL.rebate).sum ∧
    (aggregate_institution_pnl pnl_list target).equity_pnl
      = (pnl_list.map Mt5DailyPnL.equity_pnl).sum ∧
    (aggregate_institution_pnl pnl_list target).net_pnl
      = (pnl_list.map Mt5DailyPnL.net_pnl).sum ∧
    aggregate_institution_pnl [] target =
      { login := 0, date := target, present_equity := 0, equity_prev_day := 0
        group := "ALL", currency := "USD" } := by
  cases pnl_list <;> simp [aggregate_institution_pnl]

/-- C10: the gateway's balance mutation sends the magnitude of the amount:
`deposit`/`credit_in` apply `+|amount|`, `withdrawal`/`credit_out` apply
`-|amount|`; deposit/withdrawal use the balance-ledger action, the credit
types the credit-ledger action; any other operation type raises the
invalid-data error before any remote call. -/
theorem c10_balance_operation_magnitudes (login : Nat) (amount : ℚ) :
    apply_balance_operation login "deposit" amount
      = some (login, EnDealAction.DEAL_BALANCE, |amount|) ∧
    apply_balance_operation login "withdrawal" amount
      = some (login, EnDealAction.DEAL_BALANCE, -|amount|) ∧
    apply_balance_operation login "credit_in" amount
      = some (login, EnDealAction.DEAL_CREDIT, |amount|) ∧
    apply_balance_operation login "credit_out" amount
      = some (login, EnDealAction.DEAL_CREDIT, -|amount|) ∧
    (∀ t : String, t ≠ "deposit" → t ≠ "withdrawal" → t ≠ "credit_in" →
      t ≠ "credit_out" → apply_balance_operation login t amount = none) := by
  refine ⟨by simp [apply_balance_operation], by simp [apply_balance_operation],
    ?_, ?_, ?_⟩
  · simp [apply_balance_operation]
  · simp [apply_balance_operation]
  · intro t h1 h2 h3 h4
    simp [apply_balance_operation, h1, h2, h3, h4]

/-- Witness for C10: a bogus operation type is rejected with no remote call. -/
theorem c10_balance_operation_magnitudes_witness :
    apply_balance_operation 5 "bogus" (-3) = none :=
  (c10_balance_operation_magnitudes 5 (-3)).2.2.2.2 "bogus"
    (by decide) (by decide) (by decide) (by decide)

/-- C2: the classifier assigns the tag by first-match rule order on the
upper-cased comment: `DT` → Deposit, else `WT` → Withdrawal, else `REB` →
Rebate, else `PRO` → Promotion; with no prefix match, balance/charge/
correction codes (2, 4, 6) are tagged Promotion and the credit code (3) is
left untagged; together with the five concrete examples of the claim. -/
theorem c2_classifier_rules (comment : String) (code : Nat) :
    (str_starts_with (comment_upper comment) "DT" = true →
      classify_tag comment code = "Deposit") ∧
    (str_starts_with (comment_upper comment) "DT" = false →
      str_starts_with (comment_upper comment) "WT" = true →
      classify_tag comment code = "Withdrawal") ∧
    (str_starts_with (comment_upper comment) "DT" = false →
      str_starts_with (comment_upper comment) "WT" = false →
      str_starts_with (comment_upper comment) "REB" = true →
      classify_tag comment code = "Rebate") ∧
    (str_starts_with (comment_upper comment) "DT" = false →
      str_starts_with (comment_upper comment) "WT" = false →
      str_starts_with (comment_upper comment) "REB" = false →
      str_starts_with (comment_upper comment) "PRO" = true →
      classify_tag comment code = "Promotion") ∧
    (str_starts_with (comment_upper comment) "DT" = false →
      str_starts_with (comment_upper comment) "WT" = false →
      str_starts_with (comment_upper comment) "REB" = false →
      str_starts_with (comment_upper comment) "PRO" = false →
      (code = 2 ∨ code = 4 ∨ code = 6) →
      classify_tag comment code = "Promotion") ∧
    (str_starts_with (comment_upper comment) "DT" = false →
      str_starts_with (comment_upper comment) "WT" = false →
      str_starts_with (comment_upper comment) "REB" = false →
      str_starts_with (comment_upper comment) "PRO" = false →
      code = 3 → classify_tag comment code = "") ∧
    classify_tag "DT-bonus" 2 = "Deposit" ∧
    classify_tag "wt123" 2 = "Withdrawal" ∧
    classify_tag "REB Q3" 3 = "Rebate" ∧
    classify_tag "" 2 = "Promotion" ∧
    classify_tag "" 3 = "" := by
  refine ⟨fun h1 => by simp [classify_tag, h1],
    fun h1 h2 => by simp [classify_tag, h1, h2],
    fun h1 h2 h3 => by simp [classify_tag, h1, h2, h3],
    fun h1 h2 h3 h4 => by simp [classify_tag, h1, h2, h3, h4],
    fun h1 h2 h3 h4 h5 => ?_,
    fun h1 h2 h3 h4 h5 => by simp [classify_tag, h1, h2, h3, h4, h5],
    by decide, by decide, by decide, by decide, by decide⟩
  rcases h5 with h5 | h5 | h5 <;> simp [classify_tag, h1, h2, h3, h4, h5]

/-- Witness for C2: the Rebate rule fires on a lower-case `reb` prefix with
a correction action code. -/
theorem c2_classifier_rules_witness : classify_tag "rebXYZ" 6 = "Rebate" :=
  (c2_classifier_rules "rebXYZ" 6).2.2.1 (by decide) (by decide) (by decide)

/-- C5: with a non-empty idempotency key, a submission for which a prior
record with that key exists returns that record unchanged, performs zero
remote mutations and leaves the database untouched; and after a first
successful submission stored a record under the key, the replay returns
exactly that record with zero remote mutations. -/
theorem c5_idempotent_replay (st : LedgerState) (k : String) (login : Nat)
    (op_type : String) (amount : ℚ) (account_exists remote_ok : Bool)
    (hk : k ≠ "") :
    (∀ existing, get_by_idempotency_key st.ops k = some existing →
      create_operation st (some k) login op_type amount account_exists remote_ok
        = (Except.ok existing, st, 0)) ∧
    (get_by_idempotency_key st.ops k = none →
      create_operation st (some k) login op_type amount true true
        = (Except.ok
            ⟨st.next_id, login, op_type, amount, "completed", some k⟩,
           ⟨st.ops ++ [⟨st.next_id, login, op_type, amount, "completed", some k⟩],
            st.next_id + 1⟩, 1) ∧
      create_operation
          ⟨st.ops ++ [⟨st.next_id, login, op_type, amount, "completed", some k⟩],
           st.next_id + 1⟩
          (some k) login op_type amount account_exists remote_ok
        = (Except.ok ⟨st.next_id, login, op_type, amount, "completed", some k⟩,
           ⟨st.ops ++ [⟨st.next_id, login, op_type, amount, "completed", some k⟩],
            st.next_id + 1⟩, 0)) := by
  constructor
  · intro existing hex
    simp [create_operation, key_given, hk, hex]
  · intro hnone
    constructor
    · simp [create_operation, key_given, hk, hnone, create_operation_fresh]
    · have hfind : get_by_idempotency_key
          (st.ops ++ [⟨st.next_id, login, op_type, amount, "completed", some k⟩]) k
          = some ⟨st.next_id, login, op_type, amount, "completed", some k⟩ := by
        unfold get_by_idempotency_key at hnone ⊢
        rw [List.find?_append, hnone]
        simp
      simp [create_operation, key_given, hk, hfind]

/-- Witness for C5: replaying a concrete deposit with key `"abc"` against a
ledger already holding that record returns the stored record with zero
remote calls. -/
theorem c5_idempotent_replay_witness :
    create_operation ⟨[⟨0, 9, "deposit", 5, "completed", some "abc"⟩], 1⟩
        (some "abc") 9 "deposit" 5 true true
      = (Except.ok ⟨0, 9, "deposit", 5, "completed", some "abc"⟩,
         ⟨[⟨0, 9, "deposit", 5, "completed", some "abc"⟩], 1⟩, 0) :=
  (c5_idempotent_replay ⟨[⟨0, 9, "deposit", 5, "completed", some "abc"⟩], 1⟩
      "abc" 9 "deposit" 5 true true (by decide)).1
    ⟨0, 9, "deposit", 5, "completed", some "abc"⟩ (by decide)

/-- The `call_failed` transition never changes the configured threshold or cool-down. -/
theorem foldl_call_failed_config (cb : CBState) (ts : List Int) :
    (ts.foldl call_failed cb).failure_threshold = cb.failure_threshold ∧
    (ts.foldl call_failed cb).timeout = cb.timeout := by
  induction ts generalizing cb with
  | nil => exact ⟨rfl, rfl⟩
  | cons t ts ih => simpa [call_failed] using ih (call_failed cb t)

/-- Each `call_failed` adds one to the failure count. -/
theorem foldl_call_failed_count (cb : CBState) (ts : List Int) :
    (ts.foldl call_failed cb).failure_count = cb.failure_count + ts.length := by
  induction ts generalizing cb with
  | nil => simp
  | cons t ts ih =>
      simp only [List.foldl_cons]
      rw [ih (call_failed cb t)]
      simp [call_failed]
      omega

/-- Once the accumulated failures reach the threshold, the fold of
`call_failed` ends in the `opened` state. -/
theorem foldl_call_failed_opened (cb : CBState) (ts : List Int)
    (hne : ts ≠ [])
    (hcount : cb.failure_threshold ≤ cb.failure_count + ts.length) :
    (ts.foldl call_failed cb).state = CBMode.opened := by
  induction ts generalizing cb with
  | nil => exact absurd rfl hne
  | cons t ts ih =>
      cases ts with
      | nil =>
          simp only [List.foldl, call_failed]
          have : cb.failure_threshold ≤ cb.failure_count + 1 := by
            simpa using hcount
          simp [this]
      | cons t' ts' =>
          have : ((t' :: ts').foldl call_failed (call_failed cb t)).state
              = CBMode.opened := by
            refine ih (call_failed cb t) (by simp) ?_
            simp only [call_failed]
            simp at hcount ⊢
            omega
          simpa using this

/-- While `opened` and before the cool-down has elapsed, every
`can_execute` call answers `false` and leaves the state unchanged. -/
theorem can_execute_seq_all_false (cb : CBState) (qs : List Int)
    (hst : cb.state = CBMode.opened)
    (hqs : ∀ q ∈ qs, q - cb.last_failure_time < cb.timeout) :
    can_execute_seq cb qs = (List.replicate qs.length false, cb) := by
  induction qs with
  | nil => simp [can_execute_seq]
  | cons q qs ih =>
      have hq : ¬ cb.timeout ≤ q - cb.last_failure_time :=
        not_le.mpr (hqs q (by simp))
      have hrest := ih (fun q hq => hqs q (by simp [hq]))
      simp [can_execute_seq, can_execute, hst, hq, hrest, List.replicate_succ]

/-- C7: from any breaker state, N consecutive `RecordFailure` calls with
N ≥ `failureThreshold` leave the breaker `Open`; `CanExecute` then answers
`false` on every call made before `coolDown` has elapsed since the last
failure, without changing the state; any `RecordSuccess` resets the breaker
to `Closed` with zero failures; and once `coolDown` has elapsed,
`CanExecute` transitions `Open` to `HalfOpen` and answers `true`. -/
theorem c7_breaker_transitions (cb : CBState) (ts : List Int)
    (hne : ts ≠ []) (hlen : cb.failure_threshold ≤ ts.length) :
    (ts.foldl call_failed cb).state = CBMode.opened ∧
    (∀ qs : List Int,
      (∀ q ∈ qs, q - (ts.foldl call_failed cb).last_failure_time < cb.timeout) →
      can_execute_seq (ts.foldl call_failed cb) qs
        = (List.replicate qs.length false, ts.foldl call_failed cb)) ∧
    (∀ c : CBState, (call_succeeded c).state = CBMode.closed ∧
      (call_succeeded c).failure_count = 0) ∧
    (∀ now : Int,
      cb.timeout ≤ now - (ts.foldl call_failed cb).last_failure_time →
      can_execute (ts.foldl call_failed cb) now
        = (true, { ts.foldl call_failed cb with state := CBMode.halfOpen })) := by
  have hopen : (ts.foldl call_failed cb).state = CBMode.opened :=
    foldl_call_failed_opened cb ts hne
      (le_trans hlen (by omega))
  have hto : (ts.foldl call_failed cb).timeout = cb.timeout :=
    (foldl_call_failed_config cb ts).2
  refine ⟨hopen, ?_, ?_, ?_⟩
  · intro qs hqs
    exact can_execute_seq_all_false _ qs hopen (by rw [hto]; exact hqs)
  · intro c
    exact ⟨rfl, rfl⟩
  · intro now hnow
    rw [← hto] at hnow
    simp [can_execute, hopen, hnow]

/-- Witness for C7: five failures from a fresh breaker open it; probes at
10 and 59 seconds answer false; a success closes it; a probe at 60 seconds
half-opens it and answers true. -/
theorem c7_breaker_transitions_witness :
    (([0, 0, 0, 0, 0] : List Int).foldl call_failed CBState.fresh).state
      = CBMode.opened ∧
    can_execute_seq (([0, 0, 0, 0, 0] : List Int).foldl call_failed CBState.fresh)
        [10, 59]
      = ([false, false], ([0, 0, 0, 0, 0] : List Int).foldl call_failed CBState.fresh) ∧
    can_execute (([0, 0, 0, 0, 0] : List Int).foldl call_failed CBState.fresh) 60
      = (true, { ([0, 0, 0, 0, 0] : List Int).foldl call_failed CBState.fresh with
                 state := CBMode.halfOpen }) := by
  have h := c7_breaker_transitions CBState.fresh [0, 0, 0, 0, 0]
    (by decide) (by decide)
  exact ⟨h.1, h.2.1 [10, 59] (by decide), h.2.2.2 60 (by decide)⟩

/-- C8 counterexample: after the auto-transition from `Open` to `HalfOpen`
(cool-down elapsed, first `can_execute` answers true), a second
`can_execute` — with no `RecordSuccess`/`RecordFailure` in between — also
answers true: the implementation does not restrict `HalfOpen` to a single
probe, contradicting the claim that further calls do not let additional
calls through. -/
theorem c8_counterexample :
    (can_execute ⟨5, 60, 5, 0, CBMode.opened⟩ 60).1 = true ∧
    (can_execute ⟨5, 60, 5, 0, CBMode.opened⟩ 60).2.state = CBMode.halfOpen ∧
    (can_execute ((can_execute ⟨5, 60, 5, 0, CBMode.opened⟩ 60).2) 61).1 = true := by
  decide

/-- C8 amended: when the cool-down has elapsed, `can_execute` transitions
`Open` to `HalfOpen` and answers true; but every subsequent `can_execute`
in `HalfOpen` also answers true (and leaves the state unchanged) until a
success or failure resolves the probe — the breaker does not limit
`HalfOpen` to exactly one probe. -/
theorem c8_half_open_unbounded_probes (cb : CBState) (now : Int)
    (hst : cb.state = CBMode.opened)
    (helapsed : cb.timeout ≤ now - cb.last_failure_time) :
    (can_execute cb now).1 = true ∧
    (can_execute cb now).2.state = CBMode.halfOpen ∧
    (∀ c : CBState, c.state = CBMode.halfOpen →
      ∀ t : Int, can_execute c t = (true, c)) := by
  refine ⟨by simp [can_execute, hst, helapsed],
    by simp [can_execute, hst, helapsed], ?_⟩
  intro c hc t
  simp [can_execute, hc]

/-- Witness for C8 amended: concrete open breaker, cool-down elapsed. -/
theorem c8_half_open_unbounded_probes_witness :
    (can_execute ⟨5, 60, 5, 0, CBMode.opened⟩ 61).1 = true ∧
    (can_execute ⟨5, 60, 5, 0, CBMode.opened⟩ 61).2.state = CBMode.halfOpen :=
  ⟨(c8_half_open_unbounded_probes ⟨5, 60, 5, 0, CBMode.opened⟩ 61
      (by decide) (by decide)).1,
   (c8_half_open_unbounded_probes ⟨5, 60, 5, 0, CBMode.opened⟩ 61
      (by decide) (by decide)).2.1⟩

/-- C6 counterexample: with the service already connected and the breaker
`Open` (cool-down not elapsed, so `can_execute` answers false), the retry
wrapper runs the operation and returns its result without ever consulting
the breaker — contradicting the claim that `CanExecute` is consulted before
each attempt and a false answer fails the call immediately. -/
theorem c6_counterexample :
    (can_execute ⟨5, 60, 5, 0, CBMode.opened⟩ 10).1 = false ∧
    (execute_with_retry
        [⟨true, some 42, 10⟩, ⟨true, some 42, 11⟩, ⟨true, some 42, 12⟩]
        ⟨true, ⟨5, 60, 5, 0, CBMode.opened⟩⟩).1 = Except.ok 42 ∧
    ((execute_with_retry
        [⟨true, some 42, 10⟩, ⟨true, some 42, 11⟩, ⟨true, some 42, 12⟩]
        ⟨true, ⟨5, 60, 5, 0, CBMode.opened⟩⟩).2.2.count Ev.checkedBreaker) = 0 := by
  decide

/-- C6 amended: the breaker is consulted only when an attempt begins
disconnected (as the first step of reconnecting); a false answer makes that
attempt fail with the circuit-open connection error without trying to
connect or running the operation; and — far from failing immediately — the
wrapper then treats it like any other attempt failure: with attempts
remaining it performs the backoff sleep and records a breaker failure
before retrying. -/
theorem c6_breaker_checked_only_on_reconnect (s : SvcState) (env : AttemptEnv) :
    (s.connected = true → (do_attempt s env).2.2.count Ev.checkedBreaker = 0) ∧
    (s.connected = false →
      (do_attempt s env).2.2.head? = some Ev.checkedBreaker) ∧
    (s.connected = false → (can_execute s.breaker env.time).1 = false →
      (do_attempt s env).1 = Except.error GwErr.circuitOpen ∧
      Ev.triedConnect ∉ (do_attempt s env).2.2 ∧
      Ev.ranOp ∉ (do_attempt s env).2.2) ∧
    (∀ (i : Nat) (rest : List AttemptEnv) (last : Option GwErr),
      rest ≠ [] → s.connected = false →
      (can_execute s.breaker env.time).1 = false →
      (run_retry i (env :: rest) s last).2.2.take 3
        = [Ev.checkedBreaker, Ev.slept (2 ^ i), Ev.recordedFailure]) := by
  refine ⟨?_, ?_, ?_, ?_⟩
  · intro hc
    cases hor : env.opResult <;> simp [do_attempt, hc, hor]
  · intro hc
    rcases hce : can_execute s.breaker env.time with ⟨b, cb2⟩
    cases b <;> cases hco : env.connectOk <;>
      cases hor : env.opResult <;>
      simp [do_attempt, do_connect, hc, hce, hco, hor]
  · intro hc hfalse
    rcases hce : can_execute s.breaker env.time with ⟨b, cb2⟩
    rw [hce] at hfalse
    simp at hfalse
    subst hfalse
    simp [do_attempt, do_connect, hc, hce]
  · intro i rest last hrest hc hfalse
    rcases hce : can_execute s.breaker env.time with ⟨b, cb2⟩
    rw [hce] at hfalse
    simp at hfalse
    subst hfalse
    have hre : rest.isEmpty = false := by
      cases rest with
      | nil => exact absurd rfl hrest
      | cons a l => rfl
    simp [run_retry, do_attempt, do_connect, hc, hce, hre, List.take]

/-- Witness for C6 amended: the first attempt of a two-attempt run that
begins disconnected with an open breaker produces exactly a breaker check,
a one-second backoff sleep, and a recorded failure. -/
theorem c6_breaker_checked_only_on_reconnect_witness :
    (run_retry 0 [⟨true, some 1, 0⟩, ⟨true, some 1, 1⟩]
        ⟨false, ⟨5, 60, 5, 0, CBMode.opened⟩⟩ none).2.2.take 3
      = [Ev.checkedBreaker, Ev.slept 1, Ev.recordedFailure] :=
  (c6_breaker_checked_only_on_reconnect
      ⟨false, ⟨5, 60, 5, 0, CBMode.opened⟩⟩ ⟨true, some 1, 0⟩).2.2.2
    0 [⟨true, some 1, 1⟩] none (by decide) (by decide) (by decide)

/-- An attempt whose wrapped operation raises always ends in an error
(whatever the connect step did). -/
theorem do_attempt_err_of_op_none (s : SvcState) (env : AttemptEnv)
    (h : env.opResult = none) :
    ∃ e s1 evs, do_attempt s env = (Except.error e, s1, evs) := by
  cases hc : s.connected
  · rcases hdc : do_connect s env with ⟨r, s1, evs⟩
    cases r with
    | error e => exact ⟨e, s1, evs, by simp [do_attempt, hc, hdc]⟩
    | ok u =>
        exact ⟨GwErr.opFailed, s1, evs ++ [Ev.ranOp],
          by simp [do_attempt, hc, hdc, h]⟩
  · exact ⟨GwErr.opFailed, s, [Ev.ranOp], by simp [do_attempt, hc, h]⟩

/-- A failed non-final attempt hands the loop on to the next attempt,
disconnected and with a recorded breaker failure. -/
theorem run_retry_cons_err (i : Nat) (env : AttemptEnv)
    (rest : List AttemptEnv) (s : SvcState) (last : Option GwErr) (e : GwErr)
    (s1 : SvcState) (evs : List Ev)
    (hda : do_attempt s env = (Except.error e, s1, evs)) (hne : rest ≠ []) :
    (run_retry i (env :: rest) s last).1
      = (run_retry (i + 1) rest ⟨false, call_failed s1.breaker env.time⟩
          (some e)).1 := by
  have hre : rest.isEmpty = false := by
    cases rest with
    | nil => exact absurd rfl hne
    | cons a l => rfl
  simp [run_retry, hda, hre]

/-- When every remaining attempt's operation raises, the retry loop ends in
the wrapped terminal error carrying some underlying error. -/
theorem run_retry_exhausts (envs : List AttemptEnv) :
    ∀ (i : Nat) (s : SvcState) (last : Option GwErr), envs ≠ [] →
    (∀ env ∈ envs, env.opResult = none) →
    ∃ e, (run_retry i envs s last).1 = Except.error (RunErr.wrapped (some e)) := by
  induction envs with
  | nil => intro _ _ _ hne _; exact absurd rfl hne
  | cons env rest ih =>
      intro i s last _ hall
      obtain ⟨e, s1, evs, hda⟩ :=
        do_attempt_err_of_op_none s env (hall env (by simp))
      cases rest with
      | nil => exact ⟨e, by simp [run_retry, hda]⟩
      | cons env' rest' =>
          obtain ⟨e', h'⟩ := ih (i + 1)
            ⟨false, call_failed s1.breaker env.time⟩ (some e) (by simp)
            (fun x hx => hall x (by simp [hx]))
          refine ⟨e', ?_⟩
          rw [run_retry_cons_err i env (env' :: rest') s last e s1 evs hda
            (by simp)]
          exact h'

/-- C9: with three attempts, an operation that fails twice and then
succeeds makes the wrapper return the third attempt's value after exactly
two backoff sleeps of `2^0` and `2^1` seconds and exactly two
`RecordFailure` calls; when the final attempt fails, the wrapper raises the
wrapped operation-failed error carrying that last underlying error, and an
operation that fails on every attempt always ends in such a wrapped
error. -/
theorem c9_retry_backoff_and_exhaustion :
    (∀ (v : Nat) (c0 : Bool) (t0 t1 t2 : Int),
      (execute_with_retry [⟨true, none, t0⟩, ⟨true, none, t1⟩, ⟨true, some v, t2⟩]
          ⟨c0, CBState.fresh⟩).1 = Except.ok v ∧
      ((execute_with_retry [⟨true, none, t0⟩, ⟨true, none, t1⟩, ⟨true, some v, t2⟩]
          ⟨c0, CBState.fresh⟩).2.2.filter (fun e => match e with
            | Ev.slept _ => true
            | _ => false)) = [Ev.slept 1, Ev.slept 2] ∧
      ((execute_with_retry [⟨true, none, t0⟩, ⟨true, none, t1⟩, ⟨true, some v, t2⟩]
          ⟨c0, CBState.fresh⟩).2.2.count Ev.recordedFailure) = 2) ∧
    (∀ (i : Nat) (env : AttemptEnv) (s : SvcState) (last : Option GwErr)
        (e : GwErr) (s1 : SvcState) (evs : List Ev),
      do_attempt s env = (Except.error e, s1, evs) →
      (run_retry i [env] s last).1 = Except.error (RunErr.wrapped (some e))) ∧
    (∀ (envs : List AttemptEnv) (s : SvcState), envs ≠ [] →
      (∀ env ∈ envs, env.opResult = none) →
      ∃ e, (execute_with_retry envs s).1
        = Except.error (RunErr.wrapped (some e))) := by
  refine ⟨?_, ?_, ?_⟩
  · intro v c0 t0 t1 t2
    cases c0 <;>
      refine ⟨?_, ?_, ?_⟩ <;>
      simp [execute_with_retry, run_retry, do_attempt, do_connect,
        can_execute, call_succeeded, call_failed, CBState.fresh]
  · intro i env s last e s1 evs hda
    simp [run_retry, hda]
  · intro envs s hne hall
    exact run_retry_exhausts envs 0 s none hne hall

/-- Witness for C9: a single always-failing attempt ends in the wrapped
terminal error. -/
theorem c9_retry_backoff_and_exhaustion_witness :
    ∃ e, (execute_with_retry [⟨true, none, 0⟩] ⟨true, CBState.fresh⟩).1
      = Except.error (RunErr.wrapped (some e)) :=
  c9_retry_backoff_and_exhaustion.2.2 [⟨true, none, 0⟩] ⟨true, CBState.fresh⟩
    (by decide) (by decide)

/-- Field-wise effect of one loop iteration. -/
theorem step_deal_fields (acc : PnlAcc) (d : Mt5DealHistory) :
    (step_deal acc d).deposit
      = acc.deposit + (if d.tag = "Deposit" then |d.amount| else 0) ∧
    (step_deal acc d).withdrawal
      = acc.withdrawal + (if d.tag = "Withdrawal" then |d.amount| else 0) ∧
    (step_deal acc d).rebate
      = acc.rebate + (if d.tag = "Rebate" then d.amount else 0) ∧
    (step_deal acc d).promotion
      = acc.promotion + (if d.tag = "Promotion" then
          (if 0 < d.amount then |d.amount| else 0) else 0) ∧
    (step_deal acc d).net_deposit
      = acc.net_deposit + (if d.tag = "Deposit" then d.amount
          else if d.tag = "Withdrawal" then d.amount
          else if d.tag = "Rebate" then 0
          else if d.tag = "Promotion" then 0
          else if d.action = "DEPOSIT" ∨ d.action = "WITHDRAWAL" then d.amount
          else 0) ∧
    (step_deal acc d).net_credit_promotion
      = acc.net_credit_promotion + (if d.tag = "Deposit" then 0
          else if d.tag = "Withdrawal" then 0
          else if d.tag = "Rebate" then d.amount
          else if d.tag = "Promotion" then d.amount
          else if d.action = "DEPOSIT" ∨ d.action = "WITHDRAWAL" then 0
          else if d.action = "CREDIT" ∨ d.action = "CREDIT_OUT" ∨
                  d.action = "CHARGE" ∨ d.action = "CORRECTION" then d.amount
          else 0) := by
  unfold step_deal
  split_ifs <;> simp_all

/-- Field-wise characterisation of the whole classification loop. -/
theorem foldl_step_deal (hist : List Mt5DealHistory) :
    ∀ acc : PnlAcc,
    (hist.foldl step_deal acc).deposit
      = acc.deposit + (hist.map (fun d =>
          if d.tag = "Deposit" then |d.amount| else 0)).sum ∧
    (hist.foldl step_deal acc).withdrawal
      = acc.withdrawal + (hist.map (fun d =>
          if d.tag = "Withdrawal" then |d.amount| else 0)).sum ∧
    (hist.foldl step_deal acc).rebate
      = acc.rebate + (hist.map (fun d =>
          if d.tag = "Rebate" then d.amount else 0)).sum ∧
    (hist.foldl step_deal acc).promotion
      = acc.promotion + (hist.map (fun d =>
          if d.tag = "Promotion" then
            (if 0 < d.amount then |d.amount| else 0) else 0)).sum ∧
    (hist.foldl step_deal acc).net_deposit
      = acc.net_deposit + (hist.map (fun d =>
          if d.tag = "Deposit" then d.amount
          else if d.tag = "Withdrawal" then d.amount
          else if d.tag = "Rebate" then 0
          else if d.tag = "Promotion" then 0
          else if d.action = "DEPOSIT" ∨ d.action = "WITHDRAWAL" then d.amount
          else 0)).sum ∧
    (hist.foldl step_deal acc).net_credit_promotion
      = acc.net_credit_promotion + (hist.map (fun d =>
          if d.tag = "Deposit" then 0
          else if d.tag = "Withdrawal" then 0
          else if d.tag = "Rebate" then d.amount
          else if d.tag = "Promotion" then d.amount
          else if d.action = "DEPOSIT" ∨ d.action = "WITHDRAWAL" then 0
          else if d.action = "CREDIT" ∨ d.action = "CREDIT_OUT" ∨
                  d.action = "CHARGE" ∨ d.action = "CORRECTION" then d.amount
          else 0)).sum := by
  induction hist with
  | nil => intro acc; simp
  | cons d t ih =>
      intro acc
      refine ⟨?_, ?_, ?_, ?_, ?_, ?_⟩
      · rw [List.foldl_cons, (ih (step_deal acc d)).1,
          (step_deal_fields acc d).1, List.map_cons, List.sum_cons]
        ring
      · rw [List.foldl_cons, (ih (step_deal acc d)).2.1,
          (step_deal_fields acc d).2.1, List.map_cons, List.sum_cons]
        ring
      · rw [List.foldl_cons, (ih (step_deal acc d)).2.2.1,
          (step_deal_fields acc d).2.2.1, List.map_cons, List.sum_cons]
        ring
      · rw [List.foldl_cons, (ih (step_deal acc d)).2.2.2.1,
          (step_deal_fields acc d).2.2.2.1, List.map_cons, List.sum_cons]
        ring
      · rw [List.foldl_cons, (ih (step_deal acc d)).2.2.2.2.1,
          (step_deal_fields acc d).2.2.2.2.1, List.map_cons, List.sum_cons]
        ring
      · rw [List.foldl_cons, (ih (step_deal acc d)).2.2.2.2.2,
          (step_deal_fields acc d).2.2.2.2.2, List.map_cons, List.sum_cons]
        ring

/-- Sum over a filtered list as a sum of guarded contributions. -/
theorem sum_map_filter_eq {α : Type} (l : List α) (p : α → Prop)
    [DecidablePred p] (f : α → ℚ) :
    ((l.filter (fun a => decide (p a))).map f).sum
      = (l.map (fun a => if p a then f a else 0)).sum := by
  induction l with
  | nil => simp
  | cons a t ih =>
      by_cases hp : p a <;> simp [hp, ih]

/-- Pointwise sums split. -/
theorem sum_map_add {α : Type} (l : List α) (f g : α → ℚ) :
    (l.map (fun x => f x + g x)).sum = (l.map f).sum + (l.map g).sum := by
  induction l with
  | nil => simp
  | cons a t ih => simp [ih]; ring

/-- A deal with a balance-operation action code is left untagged only when
its action code is the credit code 3. -/
theorem classify_tag_empty_code (c : String) (code : Nat)
    (hcode : code = 2 ∨ code = 3 ∨ code = 4 ∨ code = 6)
    (h : classify_tag c code = "") : code = 3 := by
  simp only [classify_tag] at h
  by_cases h1 : str_starts_with (comment_upper c) "DT" = true
  · simp [h1] at h
  by_cases h2 : str_starts_with (comment_upper c) "WT" = true
  · simp [h1, h2] at h
  by_cases h3 : str_starts_with (comment_upper c) "REB" = true
  · simp [h1, h2, h3] at h
  by_cases h4 : str_starts_with (comment_upper c) "PRO" = true
  · simp [h1, h2, h3, h4] at h
  by_cases h5 : code = 3
  · exact h5
  · rcases hcode with hc | hc | hc | hc
    · simp [h1, h2, h3, h4, h5, hc] at h
    · exact absurd hc h5
    · simp [h1, h2, h3, h4, h5, hc] at h
    · simp [h1, h2, h3, h4, h5, hc] at h

/-- Every row produced by `get_deal_history` carries one of the five tags,
and an untagged row is always a credit-action row (action code 3). -/
theorem get_deal_history_tags (deals : List Deal) :
    ∀ h ∈ get_deal_history deals,
    (h.tag = "Deposit" ∨ h.tag = "Withdrawal" ∨ h.tag = "Rebate" ∨
      h.tag = "Promotion" ∨ h.tag = "") ∧
    (h.tag = "" → h.action = "CREDIT" ∨ h.action = "CREDIT_OUT") := by
  intro h hh
  simp only [get_deal_history, List.mem_map, List.mem_filter] at hh
  obtain ⟨d, ⟨_, hcode⟩, rfl⟩ := hh
  constructor
  · simp only [mk_history, classify_tag]
    split_ifs <;> simp
  · intro htag
    simp only [mk_history] at htag ⊢
    simp at hcode
    have hc3 := classify_tag_empty_code d.comment d.action_code hcode htag
    unfold action_name
    simp [hc3]
    by_cases hpos : 0 < d.amount
    · simp [hpos]
    · simp [hpos]
      exact le_of_not_lt hpos

/-- C1: when a daily report dated exactly the target date exists,
`calculate_daily_pnl` returns the record built from that (first matching)
report and the classified deals, in which: `deposit` and `withdrawal` sum
`|amount|` over Deposit- and Withdrawal-tagged deals, `net_deposit` sums the
signed amounts over Deposit- and Withdrawal-tagged deals, `rebate` sums
Rebate amounts, `promotion` sums `max(amount, 0)` over Promotion-tagged
deals, `net_credit_promotion` accumulates the signed Rebate and Promotion
amounts (plus, per the spec's fallback rule, the signed amounts of untagged
credit deals), `total_ib` is the report's `daily_agent`, and the
`equity_pnl`/`net_pnl` formulas hold. -/
theorem c1_daily_pnl_formula (login : Nat) (target : String)
    (reports : List DailyReport) (deals : List Deal) (rep : DailyReport)
    (hrep : reports.find? (fun r => r.date = target) = some rep) :
    calculate_daily_pnl login target reports deals
      = some (record_from login target rep (get_deal_history deals)) ∧
    (record_from login target rep (get_deal_history deals)).deposit
      = (((get_deal_history deals).filter (fun d => d.tag = "Deposit")).map
          (fun d => |d.amount|)).sum ∧
    (record_from login target rep (get_deal_history deals)).withdrawal
      = (((get_deal_history deals).filter (fun d => d.tag = "Withdrawal")).map
          (fun d => |d.amount|)).sum ∧
    (record_from login target rep (get_deal_history deals)).net_deposit
      = (((get_deal_history deals).filter
          (fun d => d.tag = "Deposit" ∨ d.tag = "Withdrawal")).map
          (fun d => d.amount)).sum ∧
    (record_from login target rep (get_deal_history deals)).rebate
      = (((get_deal_history deals).filter (fun d => d.tag = "Rebate")).map
          (fun d => d.amount)).sum ∧
    (record_from login target rep (get_deal_history deals)).promotion
      = (((get_deal_history deals).filter (fun d => d.tag = "Promotion")).map
          (fun d => max d.amount 0)).sum ∧
    (record_from login target rep (get_deal_history deals)).net_credit_promotion
      = (((get_deal_history deals).filter (fun d => d.tag = "Rebate")).map
          (fun d => d.amount)).sum
        + (((get_deal_history deals).filter (fun d => d.tag = "Promotion")).map
          (fun d => d.amount)).sum
        + (((get_deal_history deals).filter (fun d => d.tag = "")).map
          (fun d => d.amount)).sum ∧
    (record_from login target rep (get_deal_history deals)).total_ib
      = rep.daily_agent ∧
    (record_from login target rep (get_deal_history deals)).present_equity
      = rep.present_equity ∧
    (record_from login target rep (get_deal_history deals)).equity_prev_day
      = rep.equity_prev_day ∧
    (record_from login target rep (get_deal_history deals)).equity_pnl
      = (record_from login target rep (get_deal_history deals)).present_equity
        - (record_from login target rep (get_deal_history deals)).equity_prev_day
        - (record_from login target rep (get_deal_history deals)).net_deposit
        - (record_from login target rep (get_deal_history deals)).net_credit_promotion
        - (record_from login target rep (get_deal_history deals)).total_ib ∧
    (record_from login target rep (get_deal_history deals)).net_pnl
      = (record_from login target rep (get_deal_history deals)).equity_pnl
        - (record_from login target rep (get_deal_history deals)).promotion := by
  have hinv := get_deal_history_tags deals
  have hfold := foldl_step_deal (get_deal_history deals) PnlAcc.zero
  refine ⟨by simp [calculate_daily_pnl, hrep], ?_, ?_, ?_, ?_, ?_, ?_,
    rfl, rfl, rfl, rfl, rfl⟩
  · show (List.foldl step_deal PnlAcc.zero (get_deal_history deals)).deposit = _
    rw [hfold.1, sum_map_filter_eq]
    simp [PnlAcc.zero]
  · show (List.foldl step_deal PnlAcc.zero (get_deal_history deals)).withdrawal = _
    rw [hfold.2.1, sum_map_filter_eq]
    simp [PnlAcc.zero]
  · show (List.foldl step_deal PnlAcc.zero (get_deal_history deals)).net_deposit = _
    rw [hfold.2.2.2.2.1, sum_map_filter_eq]
    have hmc : (get_deal_history deals).map (fun d =>
        if d.tag = "Deposit" then d.amount
        else if d.tag = "Withdrawal" then d.amount
        else if d.tag = "Rebate" then 0
        else if d.tag = "Promotion" then 0
        else if d.action = "DEPOSIT" ∨ d.action = "WITHDRAWAL" then d.amount
        else 0)
        = (get_deal_history deals).map (fun d =>
          if d.tag = "Deposit" ∨ d.tag = "Withdrawal" then d.amount else 0) := by
      apply List.map_congr_left
      intro d hd
      obtain ⟨htags, huntag⟩ := hinv d hd
      rcases htags with h | h | h | h | h
      · simp [h]
      · simp [h]
      · simp [h]
      · simp [h]
      · rcases huntag h with ha | ha <;> simp [h, ha]
    rw [hmc]
    simp [PnlAcc.zero]
  · show (List.foldl step_deal PnlAcc.zero (get_deal_history deals)).rebate = _
    rw [hfold.2.2.1, sum_map_filter_eq]
    simp [PnlAcc.zero]
  · show (List.foldl step_deal PnlAcc.zero (get_deal_history deals)).promotion = _
    rw [hfold.2.2.2.1, sum_map_filter_eq]
    have hmc : (get_deal_history deals).map (fun d =>
        if d.tag = "Promotion" then (if 0 < d.amount then |d.amount| else 0) else 0)
        = (get_deal_history deals).map (fun d =>
          if d.tag = "Promotion" then max d.amount 0 else 0) := by
      apply List.map_congr_left
      intro d _
      by_cases hp : d.tag = "Promotion"
      · simp only [hp, if_true]
        by_cases hpos : 0 < d.amount
        · rw [if_pos hpos, abs_of_pos hpos, max_eq_left (le_of_lt hpos)]
        · rw [if_neg hpos, max_eq_right (le_of_not_lt hpos)]
      · simp [hp]
    rw [hmc]
    simp [PnlAcc.zero]
  · show (List.foldl step_deal PnlAcc.zero
        (get_deal_history deals)).net_credit_promotion = _
    rw [hfold.2.2.2.2.2, sum_map_filter_eq, sum_map_filter_eq, sum_map_filter_eq]
    have hmc : (get_deal_history deals).map (fun d =>
        if d.tag = "Deposit" then 0
        else if d.tag = "Withdrawal" then 0
        else if d.tag = "Rebate" then d.amount
        else if d.tag = "Promotion" then d.amount
        else if d.action = "DEPOSIT" ∨ d.action = "WITHDRAWAL" then 0
        else if d.action = "CREDIT" ∨ d.action = "CREDIT_OUT" ∨
                d.action = "CHARGE" ∨ d.action = "CORRECTION" then d.amount
        else 0)
        = (get_deal_history deals).map (fun d =>
          (if d.tag = "Rebate" then d.amount else 0)
          + ((if d.tag = "Promotion" then d.amount else 0)
            + (if d.tag = "" then d.amount else 0))) := by
      apply List.map_congr_left
      intro d hd
      obtain ⟨htags, huntag⟩ := hinv d hd
      rcases htags with h | h | h | h | h
      · simp [h]
      · simp [h]
      · simp [h]
      · simp [h]
      · rcases huntag h with ha | ha <;> simp [h, ha]
    rw [hmc, sum_map_add, sum_map_add]
    simp [PnlAcc.zero]
    ring

/-- Witness for C1: the spec's worked scenario — equity 10500 over 10000,
one `DT` deposit of 500 and one `REB` rebate of 20, `daily_agent` 5. -/
theorem c1_daily_pnl_formula_witness :
    calculate_daily_pnl 1 "2025-10-31"
      [⟨1, "2025-10-30", 10000, 9000, 0, "g", "USD"⟩,
       ⟨1, "2025-10-31", 10500, 10000, 5, "g", "USD"⟩]
      [⟨1, 2, 500, "DT wire"⟩, ⟨1, 2, 20, "REB q"⟩]
    = some (record_from 1 "2025-10-31" ⟨1, "2025-10-31", 10500, 10000, 5, "g", "USD"⟩
        (get_deal_history [⟨1, 2, 500, "DT wire"⟩, ⟨1, 2, 20, "REB q"⟩])) :=
  (c1_daily_pnl_formula 1 "2025-10-31"
    [⟨1, "2025-10-30", 10000, 9000, 0, "g", "USD"⟩,
     ⟨1, "2025-10-31", 10500, 10000, 5, "g", "USD"⟩]
    [⟨1, 2, 500, "DT wire"⟩, ⟨1, 2, 20, "REB q"⟩]
    ⟨1, "2025-10-31", 10500, 10000, 5, "g", "USD"⟩ (by decide)).1

/-- Lookup after the dict-style in-place replacement of `insert_report`. -/
theorem find?_replace (m : List (Nat × DailyReport)) (r : DailyReport) (K : Nat) :
    ((m.map (fun p => if p.1 = r.login then (p.1, r) else p)).find?
        (fun p => p.1 = K))
      = if K = r.login
        then (m.find? (fun p => p.1 = K)).map (fun p => (p.1, r))
        else m.find? (fun p => p.1 = K) := by
  induction m with
  | nil => simp
  | cons p t ih =>
      simp only [List.map_cons, List.find?]
      by_cases hpr : p.1 = r.login
      · have hif : (if p.1 = r.login then (p.1, r) else p) = (p.1, r) :=
          if_pos hpr
        simp only [hif]
        by_cases hpk : p.1 = K
        · have hkr : K = r.login := hpk.symm.trans hpr
          have h1 : decide (p.1 = K) = true := by simp [hpk]
          simp only [h1]
          rw [if_pos hkr]
          rfl
        · have hkr : ¬ K = r.login := fun h => hpk (hpr.trans h.symm)
          have h1 : decide (p.1 = K) = false := by simp [hpk]
          simp only [h1]
          rw [ih]
      · have hif : (if p.1 = r.login then (p.1, r) else p) = p := if_neg hpr
        simp only [hif]
        by_cases hpk : p.1 = K
        · by_cases hkr : K = r.login
          · exact absurd (hpk.trans hkr) hpr
          · have h1 : decide (p.1 = K) = true := by simp [hpk]
            simp only [h1]
            rw [if_neg hkr]
        · have h1 : decide (p.1 = K) = false := by simp [hpk]
          simp only [h1]
          rw [ih]

/-- Lookup after one Python dict assignment `m[r.login] = r`. -/
theorem insert_report_find? (m : List (Nat × DailyReport)) (r : DailyReport)
    (K : Nat) :
    ((insert_report m r).find? (fun p => p.1 = K))
      = if K = r.login then some (r.login, r)
        else m.find? (fun p => p.1 = K) := by
  unfold insert_report
  cases hmem : (m.find? (fun p => p.1 = r.login)).isSome with
  | false =>
      rw [if_neg Bool.false_ne_true]
      have hnone : m.find? (fun p => p.1 = r.login) = none := by
        cases hx : m.find? (fun p => p.1 = r.login)
        · rfl
        · rw [hx] at hmem; simp at hmem
      rw [List.find?_append]
      by_cases hkr : K = r.login
      · rw [if_pos hkr]
        subst hkr
        rw [hnone]
        simp [List.find?]
      · rw [if_neg hkr]
        have hr : decide ((r.login, r).1 = K) = false := by
          simp
          exact fun h => hkr h.symm
        simp [List.find?, hr]
  | true =>
      rw [if_pos rfl, find?_replace]
      by_cases hkr : K = r.login
      · rw [if_pos hkr, if_pos hkr]
        subst hkr
        obtain ⟨q, hq⟩ := Option.isSome_iff_exists.mp hmem
        have hq1 : q.1 = r.login := by simpa using List.find?_some hq
        rw [hq]
        simp [hq1]
      · rw [if_neg hkr, if_neg hkr]

/-- The lookup of login `K` in `reports_by_login` is the last report in
iteration order that is dated the target date and belongs to `K` (Python
dict assignment: last write wins). -/
theorem build_report_map_find? (target : String) (K : Nat)
    (rs : List DailyReport) :
    ∀ m : List (Nat × DailyReport),
    ((rs.foldl (fun m r => if r.date = target then insert_report m r else m)
        m).find? (fun p => p.1 = K))
      = match rs.reverse.find?
          (fun r => decide (r.date = target) && decide (r.login = K)) with
        | some r => some (K, r)
        | none => m.find? (fun p => p.1 = K) := by
  induction rs with
  | nil => intro m; simp
  | cons r rest ih =>
      intro m
      simp only [List.foldl_cons, List.reverse_cons, List.find?_append]
      rw [ih]
      cases hrev : rest.reverse.find?
          (fun r => decide (r.date = target) && decide (r.login = K)) with
      | some r' => simp
      | none =>
          simp only [Option.none_or]
          by_cases hd : r.date = target
          · rw [if_pos hd, insert_report_find?]
            by_cases hl : r.login = K
            · have hsing : List.find?
                  (fun r => decide (r.date = target) && decide (r.login = K)) [r]
                  = some r := by
                simp [List.find?, hd, hl]
              rw [hsing, if_pos hl.symm, hl]
            · have hsing : List.find?
                  (fun r => decide (r.date = target) && decide (r.login = K)) [r]
                  = none := by
                simp [List.find?, hd, hl]
              rw [hsing, if_neg (fun h => hl h.symm)]
          · rw [if_neg hd]
            have hsing : List.find?
                (fun r => decide (r.date = target) && decide (r.login = K)) [r]
                = none := by
              simp [List.find?, hd]
            rw [hsing]

/-- When at most one element matches, the first match and the last match
coincide. -/
theorem reverse_find?_of_countP_le_one {α : Type} (l : List α) (p : α → Bool)
    (h : l.countP p ≤ 1) : l.reverse.find? p = l.find? p := by
  induction l with
  | nil => simp
  | cons a t ih =>
      simp only [List.reverse_cons, List.find?_append]
      rw [List.countP_cons] at h
      by_cases hp : p a = true
      · have ht : t.countP p = 0 := by
          rw [if_pos hp] at h
          omega
        have hzero : ∀ x ∈ t, ¬ p x = true := fun x hx => by
          simpa using List.countP_eq_zero.mp ht x hx
        have hnone : t.find? p = none :=
          List.find?_eq_none.mpr hzero
        have hrevnone : t.reverse.find? p = none :=
          List.find?_eq_none.mpr (fun x hx => hzero x (List.mem_reverse.mp hx))
        rw [hrevnone]
        simp [List.find?, hp]
      · have ht : t.countP p ≤ 1 := by
          rw [if_neg hp] at h
          omega
        have hsing : List.find? p [a] = none := by
          simp [List.find?, hp]
        rw [hsing]
        simp only [Option.or_none]
        rw [ih ht]
        simp [List.find?, hp]

/-- Searching a filtered list is searching for the conjunction. -/
theorem find?_filter_comm {α : Type} (l : List α) (p q : α → Bool) :
    (l.filter p).find? q = l.find? (fun a => p a && q a) := by
  induction l with
  | nil => simp
  | cons a t ih =>
      by_cases hp : p a = true
      · by_cases hq : q a = true
        · simp [hp, hq, List.find?]
        · simp [hp, hq, List.find?, ih]
      · simp [hp, List.find?, ih]

/-- The result of `find?` only depends on the predicate pointwise. -/
theorem find?_ext {α : Type} (l : List α) (p q : α → Bool)
    (h : ∀ a, p a = q a) : l.find? p = l.find? q := by
  induction l with
  | nil => simp
  | cons a t ih =>
      simp only [List.find?, h a, ih]

/-- Classifying the deals of one login commutes with classifying all deals
and then grouping by login. -/
theorem get_deal_history_filter_login (deals : List Deal) (K : Nat) :
    get_deal_history (deals.filter (fun d => d.login = K))
      = (get_deal_history deals).filter (fun h => h.login = K) := by
  unfold get_deal_history
  rw [List.filter_map, List.filter_filter, List.filter_filter]
  refine congrArg (List.map mk_history) (List.filter_congr ?_)
  intro d _
  simp [mk_history, Function.comp]
  exact Bool.and_comm _ _

/-- Looking up a login among the bulk records is looking it up among the
grouped reports. -/
theorem find?_record_map (m : List (Nat × DailyReport)) (target : String)
    (hist : List Mt5DealHistory) (K : Nat) :
    ((m.map (fun p => record_from p.1 target p.2
        (hist.filter (fun h => h.login = p.1)))).find?
        (fun rec => rec.login = K))
      = (m.find? (fun p => p.1 = K)).map (fun p => record_from p.1 target p.2
          (hist.filter (fun h => h.login = p.1))) := by
  induction m with
  | nil => simp
  | cons p t ih =>
      have hlog : (record_from p.1 target p.2
          (hist.filter (fun h => h.login = p.1))).login = p.1 := rfl
      by_cases hk : p.1 = K
      · have h1 : decide ((record_from p.1 target p.2
            (hist.filter (fun h => h.login = p.1))).login = K) = true := by
          rw [hlog]
          simp [hk]
        have h2 : decide (p.1 = K) = true := by simp [hk]
        simp only [List.map_cons, List.find?, h1, h2]
        rfl
      · have h1 : decide ((record_from p.1 target p.2
            (hist.filter (fun h => h.login = p.1))).login = K) = false := by
          rw [hlog]
          simp [hk]
        have h2 : decide (p.1 = K) = false := by simp [hk]
        simp only [List.map_cons, List.find?, h1, h2]
        exact ih

/-- C3 counterexample: with two reports for login 7 both dated the target
date (present equities 100 and 200) and no deals, the bulk path keeps the
last report (equity 200) while the per-login path keeps the first (equity
100), so the two records differ although both paths saw the same underlying
reports and deals. -/
theorem c3_counterexample :
    ((calculate_all_logins_pnl "2025-10-31"
        [⟨7, "2025-10-31", 100, 0, 0, "g", "USD"⟩,
         ⟨7, "2025-10-31", 200, 0, 0, "g", "USD"⟩] []).find?
        (fun rec => rec.login = 7)).map Mt5DailyPnL.present_equity
      = some 200 ∧
    (calculate_daily_pnl 7 "2025-10-31"
        ([⟨7, "2025-10-31", 100, 0, 0, "g", "USD"⟩,
          ⟨7, "2025-10-31", 200, 0, 0, "g", "USD"⟩].filter
          (fun r => r.login = 7))
        (([] : List Deal).filter (fun d => d.login = 7))).map
        Mt5DailyPnL.present_equity
      = some 100 ∧
    (calculate_all_logins_pnl "2025-10-31"
        [⟨7, "2025-10-31", 100, 0, 0, "g", "USD"⟩,
         ⟨7, "2025-10-31", 200, 0, 0, "g", "USD"⟩] []).find?
        (fun rec => rec.login = 7)
      ≠ calculate_daily_pnl 7 "2025-10-31"
          ([⟨7, "2025-10-31", 100, 0, 0, "g", "USD"⟩,
            ⟨7, "2025-10-31", 200, 0, 0, "g", "USD"⟩].filter
            (fun r => r.login = 7))
          (([] : List Deal).filter (fun d => d.login = 7)) := by
  have h1 : ((calculate_all_logins_pnl "2025-10-31"
      [⟨7, "2025-10-31", 100, 0, 0, "g", "USD"⟩,
       ⟨7, "2025-10-31", 200, 0, 0, "g", "USD"⟩] []).find?
      (fun rec => rec.login = 7)).map Mt5DailyPnL.present_equity
      = some 200 := by
    simp [calculate_all_logins_pnl, build_report_map, insert_report,
      record_from, get_deal_history, PnlAcc.zero, List.find?, List.foldl]
  have h2 : (calculate_daily_pnl 7 "2025-10-31"
      ([⟨7, "2025-10-31", 100, 0, 0, "g", "USD"⟩,
        ⟨7, "2025-10-31", 200, 0, 0, "g", "USD"⟩].filter
        (fun r => r.login = 7))
      (([] : List Deal).filter (fun d => d.login = 7))).map
      Mt5DailyPnL.present_equity = some 100 := by
    simp [calculate_daily_pnl, record_from, get_deal_history, PnlAcc.zero,
      List.find?, List.filter]
  refine ⟨h1, h2, fun h => ?_⟩
  rw [h, h2] at h1
  have := Option.some.inj h1
  norm_num at this

/-- C3 amended: the bulk record for a login equals the per-login record
computed from the same underlying reports and deals, provided at most one
report in the shared list is dated the target date for that login (the
per-login path keeps the first matching report, the bulk path the last, so
only duplicate same-date reports can diverge); and the institution
aggregate's `equity_pnl` over the bulk results is the sum of the per-record
`equity_pnl` values. -/
theorem c3_bulk_matches_per_login (target : String)
    (reports : List DailyReport) (deals : List Deal) (K : Nat)
    (huniq : reports.countP
      (fun r => decide (r.date = target) && decide (r.login = K)) ≤ 1) :
    (calculate_all_logins_pnl target reports deals).find?
        (fun rec => rec.login = K)
      = calculate_daily_pnl K target (reports.filter (fun r => r.login = K))
          (deals.filter (fun d => d.login = K)) ∧
    (aggregate_institution_pnl (calculate_all_logins_pnl target reports deals)
        target).equity_pnl
      = ((calculate_all_logins_pnl target reports deals).map
          Mt5DailyPnL.equity_pnl).sum := by
  constructor
  · unfold calculate_all_logins_pnl
    rw [find?_record_map]
    unfold build_report_map
    rw [build_report_map_find? target K reports []]
    rw [reverse_find?_of_countP_le_one _ _ huniq]
    unfold calculate_daily_pnl
    rw [find?_filter_comm, get_deal_history_filter_login]
    rw [find?_ext reports
      (fun a => decide (a.login = K) && decide (a.date = target))
      (fun a => decide (a.date = target) && decide (a.login = K))
      (fun a => Bool.and_comm _ _)]
    cases hf : reports.find?
        (fun r => decide (r.date = target) && decide (r.login = K)) with
    | none => simp
    | some r => simp
  · cases hl : calculate_all_logins_pnl target reports deals with
    | nil => simp [aggregate_institution_pnl]
    | cons a l => simp [aggregate_institution_pnl]

/-- Witness for C3 amended: a single report for login 7 gives identical
bulk and per-login records. -/
theorem c3_bulk_matches_per_login_witness :
    (calculate_all_logins_pnl "2025-10-31"
        [⟨7, "2025-10-31", 100, 0, 0, "g", "USD"⟩] []).find?
        (fun rec => rec.login = 7)
      = calculate_daily_pnl 7 "2025-10-31"
          ([⟨7, "2025-10-31", 100, 0, 0, "g", "USD"⟩].filter
            (fun r => r.login = 7))
          (([] : List Deal).filter (fun d => d.login = 7)) :=
  (c3_bulk_matches_per_login "2025-10-31"
    [⟨7, "2025-10-31", 100, 0, 0, "g", "USD"⟩] [] 7 (by decide)).1

end MetaCms
